import Mathlib

/-!
Shallow embedding of the LiteratureRetriever harvest/schedule/dedup/persist
pipeline (`app/models/paper.py`, `app/services/storage.py`,
`app/services/scheduler.py`, `app/crawler/nature.py`, `app/crawler/nature_rss.py`),
together with theorems settling the frozen claims about it.

Modelling conventions:
* Python `datetime` values are represented by their stored serialization
  (the ISO-format string produced by `isoformat()`), since that is the form in
  which the storage layer compares them (`ORDER BY COALESCE(published_at,'')`).
* The `extras` dict is represented by its serialized form (an opaque string),
  matching `json.dumps(p.extras)` at the storage boundary.
* HTML/XML parsing (BeautifulSoup selectors) is out of the spec's scope and is
  represented by oracle functions in `FetchEnv`; the control flow around them
  (requests, `raise_for_status`, try/except boundaries, truthiness guards,
  slicing by `max_items`) is translated faithfully from the source.
* Exceptions are `Except Unit`; a caught exception corresponds to matching on
  `Except.error`.
-/

namespace LitRetriever

/-- The `Paper` dataclass of `app/models/paper.py`.  `published_at` holds the
ISO serialization of the optional datetime; `extras` holds the serialized
dict (see module conventions). -/
structure Paper where
  title : String
  url : String
  doi : Option String
  source : String
  published_at : Option String
  authors : Option (List String)
  abstract : Option String
  journal : Option String
  extras : Option String
deriving Repr, DecidableEq

/-- One row of the `papers` table (`SCHEMA` in `app/services/storage.py`):
`id` is the AUTOINCREMENT primary key, `created_at` the insert-time default. -/
structure Row where
  id : Nat
  title : String
  url : String
  doi : Option String
  source : String
  published_at : Option String
  authors : Option String
  abstract : Option String
  journal : Option String
  extras : Option String
  created_at : String
deriving Repr, DecidableEq

/-- The persistent store: the `papers` table plus the next AUTOINCREMENT id. -/
structure DB where
  rows : List Row
  nextId : Nat
deriving Repr, DecidableEq

/-- A fresh SQLite database; AUTOINCREMENT ids start at 1. -/
def emptyDB : DB := { rows := [], nextId := 1 }

/-- Binding of the `authors` column: `", ".join(p.authors) if p.authors else None`
(a `None` or empty author list is falsy and stores NULL). -/
def joinAuthors : Option (List String) → Option String
  | none => none
  | some [] => none
  | some (a :: rest) => some (String.intercalate ", " (a :: rest))

/-- The row freshly inserted for paper `p` by the `INSERT` arm of
`upsert_papers` (VALUES list in `SQLiteStorage.upsert_papers`). -/
def mkRow (idv : Nat) (now : String) (p : Paper) : Row :=
  { id := idv
    title := p.title
    url := p.url
    doi := p.doi
    source := p.source
    published_at := p.published_at
    authors := joinAuthors p.authors
    abstract := p.abstract
    journal := p.journal
    extras := p.extras
    created_at := now }

/-- The `ON CONFLICT(url) DO UPDATE SET ...` arm: overwrites title, doi,
source, published_at, authors, abstract, journal and extras with the excluded
(new) values; `id`, `url` and `created_at` are not in the SET list.  The MySQL
backend's `ON DUPLICATE KEY UPDATE` clause updates the identical field set. -/
def applyUpdate (p : Paper) (r : Row) : Row :=
  { r with
    title := p.title
    doi := p.doi
    source := p.source
    published_at := p.published_at
    authors := joinAuthors p.authors
    abstract := p.abstract
    journal := p.journal
    extras := p.extras }

/-- One `INSERT ... ON CONFLICT(url) DO UPDATE` statement execution for a
single paper. -/
def upsertOne (now : String) (db : DB) (p : Paper) : DB :=
  if db.rows.any (fun r => r.url = p.url) then
    { db with rows := db.rows.map (fun r => if r.url = p.url then applyUpdate p r else r) }
  else
    { rows := db.rows ++ [mkRow db.nextId now p], nextId := db.nextId + 1 }

/-- `SQLiteStorage.upsert_papers`: `if not papers: return 0`, else execute the
upsert statement for each paper in order and `return len(papers)`.
(`MySQLStorage.upsert_papers` has the same shape.) -/
def upsertPapers (now : String) (db : DB) (papers : List Paper) : DB × Nat :=
  if papers.isEmpty then (db, 0)
  else (papers.foldl (upsertOne now) db, papers.length)

/-- The rows currently stored for a given url. -/
def findByUrl (db : DB) (u : String) : List Row :=
  db.rows.filter (fun r => r.url = u)

/-- Byte-wise (BINARY-collation) `<=` on TEXT values, as SQLite compares the
`COALESCE(published_at,'')` sort key. -/
def charListLe : List Char → List Char → Bool
  | [], _ => true
  | _ :: _, [] => false
  | a :: as, b :: bs => if a < b then true else if b < a then false else charListLe as bs

/-- Substring test on char lists, used to model SQL `LIKE '%needle%'`. -/
def containsSub : List Char → List Char → Bool
  | needle, [] => needle.isEmpty
  | needle, c :: rest => needle.isPrefixOf (c :: rest) || containsSub needle rest

/-- `column LIKE '%q%'` on a nullable TEXT column: NULL never matches, and the
default SQLite LIKE is case-insensitive (modelled via `Char.toLower`). -/
def likeCI (column : Option String) (q : String) : Bool :=
  match column with
  | none => false
  | some s => containsSub (q.data.map Char.toLower) (s.data.map Char.toLower)

/-- The WHERE clause built by `search_papers`: the query condition is added
only when `query` is truthy (non-empty), the source condition only when
`source` is truthy. -/
def rowMatches (query : String) (src : Option String) (r : Row) : Bool :=
  (query.isEmpty ||
     (likeCI (some r.title) query || likeCI r.abstract query || likeCI r.authors query)) &&
  (match src with
   | none => true
   | some s => s.isEmpty || decide (r.source = s))

/-- The primary sort key of `search_papers`: `COALESCE(published_at, '')`
as compared by SQLite (byte-wise on the TEXT value). -/
def rowKey (r : Row) : List Char := (r.published_at.getD "").data

/-- The `ORDER BY COALESCE(published_at, '') DESC, id DESC` sort key test:
row `a` sorts no later than row `b`. -/
def rowOrdB (a b : Row) : Bool :=
  if rowKey a = rowKey b then decide (b.id ≤ a.id) else charListLe (rowKey b) (rowKey a)

/-- Propositional form of `rowOrdB` (kept reducible so sorting stays
decidable). -/
abbrev rowBefore (a b : Row) : Prop := rowOrdB a b = true

/-- Result shape of `search_papers`. -/
structure SearchResult where
  items : List Row
  count : Nat
  offset : Nat
  limit : Nat
deriving Repr, DecidableEq

/-- `SQLiteStorage.search_papers`: filter by the WHERE clause, order by the
`ORDER BY` key, apply `LIMIT ? OFFSET ?`, and return
`{"items": items, "count": len(items), "offset": offset, "limit": limit}`.
(`MySQLStorage.search_papers` orders by the equivalent key
`(published_at IS NULL), published_at DESC, id DESC`.) -/
def searchPapers (db : DB) (query : String) (src : Option String)
    (limit offset : Nat) : SearchResult :=
  let matching := db.rows.filter (rowMatches query src)
  let ordered := List.insertionSort rowBefore matching
  let page := (ordered.drop offset).take limit
  { items := page, count := page.length, offset := offset, limit := limit }

/-- Modelled from the spec (for comparison with the code's order): "Results
ordered by published_at descending with records having no publish date ordered
last, secondary order by insertion-recency descending" — dates compared in
their ISO serialization, insertion recency by the autoincrement id. -/
def specOrderedBefore (a b : Row) : Prop :=
  match a.published_at, b.published_at with
  | some x, some y => if x = y then b.id ≤ a.id else charListLe y.data x.data = true
  | some _, none => True
  | none, some _ => False
  | none, none => b.id ≤ a.id

/-- A parsed listing/search card (`article.c-card` or the fallback list rows):
`titleLink` is the `(get_text, href)` of the title anchor when one was found,
`datetimeAttr` the `datetime` attribute of a `time` element when present. -/
structure Card where
  titleLink : Option (String × String)
  datetimeAttr : Option String
  authors : List String

/-- A parsed RSS `item` element: each field is `none` when the corresponding
tag is missing. -/
structure FeedItem where
  title : Option String
  link : Option String
  pubDate : Option String

/-- The external world a fetch call runs against.  `http u` is the outcome of
`session.get(u); r.raise_for_status()` (error = any requests exception or bad
status); `searchReq q` likewise for `session.get(SEARCH_URL, params={q,...})`.
The parse oracles stand for the out-of-scope BeautifulSoup extraction rules;
`fromIso` models the guarded `datetime.fromisoformat` (none = ValueError),
`parseRssDate` the guarded `datetime.strptime`, `netloc` is
`urlparse(link).netloc`. -/
structure FetchEnv where
  http : String → Except Unit String
  searchReq : String → Except Unit String
  parseCards : String → List Card
  parseSearchItems : String → List Card
  parseFeedItems : String → List FeedItem
  parseDetail : String → Option String × Option String
  fromIso : String → Option String
  parseRssDate : String → Option String
  netloc : String → String

/-- Base url constant of `app/crawler/nature.py`. -/
def BASE_URL : String := "https://www.nature.com"

/-- Listing url constant of `app/crawler/nature.py`. -/
def LATEST_URL : String := "https://www.nature.com/nature/research-articles"

/-- `NatureCrawler._fetch_detail` / `NatureRSSCrawler._fetch_detail`: the whole
body is inside try/except returning `(None, None)` on any fault. -/
def fetchDetail (env : FetchEnv) (url : String) : Option String × Option String :=
  match env.http url with
  | .error _ => (none, none)
  | .ok body => env.parseDetail body

/-- The per-card loop body shared by `fetch_latest` and `fetch_search`: skip
cards without a title anchor (`continue`), absolutize the href, parse the date
under try/except, fetch detail (fault-absorbing), and build the `Paper`. -/
def cardToPaper (env : FetchEnv) (extras : Option String) (card : Card) : Option Paper :=
  match card.titleLink with
  | none => none
  | some (title, href) =>
    let url := if href.startsWith "http" then href else BASE_URL ++ href
    let pub := match card.datetimeAttr with
      | none => none
      | some d => env.fromIso d
    let det := fetchDetail env url
    some { title := title
           url := url
           doi := det.2
           source := "nature"
           published_at := pub
           authors := if card.authors.isEmpty then none else some card.authors
           abstract := det.1
           journal := some "Nature"
           extras := extras }

/-- `NatureCrawler.fetch_latest`: the listing request and `raise_for_status`
are NOT inside any try/except, so their fault propagates; then the first
`max_items` cards are processed. -/
def natureFetchLatest (env : FetchEnv) (maxItems : Nat) : Except Unit (List Paper) := do
  let body ← env.http LATEST_URL
  return ((env.parseCards body).take maxItems).filterMap (cardToPaper env none)

/-- `NatureCrawler.fetch_search`: same shape as `fetch_latest` over the search
results page; `extras={"query": query}` is carried in serialized form. -/
def natureFetchSearch (env : FetchEnv) (query : String) (maxItems : Nat) :
    Except Unit (List Paper) := do
  let body ← env.searchReq query
  return ((env.parseSearchItems body).take maxItems).filterMap
    (cardToPaper env (some (String.append "query:" query)))

/-- The per-item body of the RSS loop: date parsed under try/except, detail
fetched fault-absorbingly (`_fetch_detail(None)` short-circuits), and the
paper appended only under the truthiness guard `if title and link`. -/
def rssItemToPaper (env : FetchEnv) (feed : String) (it : FeedItem) : Option Paper :=
  let pub := match it.pubDate with
    | none => none
    | some s => env.parseRssDate s
  let det := match it.link with
    | none => (none, none)
    | some l => fetchDetail env l
  match it.title, it.link with
  | some t, some l =>
    if t.isEmpty || l.isEmpty then none
    else some { title := t
                url := l
                doi := det.2
                source := "nature-portfolio"
                published_at := pub
                authors := none
                abstract := det.1
                journal := some (env.netloc l)
                extras := some (String.append "feed:" feed) }
  | _, _ => none

/-- One iteration of the feed loop in `NatureRSSCrawler.fetch_latest`: the
whole body is wrapped in `try: ... except Exception: continue`, and the items
of THIS feed are sliced to `[:max_items]`. -/
def rssProcessFeed (env : FetchEnv) (maxItems : Nat) (feed : String) : List Paper :=
  match env.http feed with
  | .error _ => []
  | .ok body => ((env.parseFeedItems body).take maxItems).filterMap (rssItemToPaper env feed)

/-- `NatureRSSCrawler.fetch_latest`: accumulate the per-feed results in feed
order. -/
def rssFetchLatest (env : FetchEnv) (feeds : List String) (maxItems : Nat) : List Paper :=
  (feeds.map (rssProcessFeed env maxItems)).flatten

/-- The scheduler-owned run state (`Scheduler.__init__`): `last_run_at`,
`last_result_count` and the one-off job flag `_job_running`. -/
structure SchedState where
  last_run_at : Option String
  last_result_count : Nat
  job_running : Bool
deriving Repr, DecidableEq

/-- The collaborators one `run_once` call interacts with: the outcome of the
two fetch calls, whether `FEEDS` is configured non-empty, the storage layer's
`upsert_papers` behaviour, and the current `datetime.utcnow().isoformat()`. -/
structure RunEnv where
  natureResult : Except Unit (List Paper)
  rssResult : Except Unit (List Paper)
  feedsConfigured : Bool
  upsert : List Paper → Except Unit Nat
  now : String

/-- The batch assembled by `run_once`: each fetch call is wrapped in its own
`try/except Exception: pass`, so a failed fetch contributes nothing; the RSS
fetch only happens when feeds are configured. -/
def collectPapers (env : RunEnv) : List Paper :=
  (match env.natureResult with | .ok l => l | .error _ => []) ++
  (if env.feedsConfigured then
     (match env.rssResult with | .ok l => l | .error _ => [])
   else [])

/-- `Scheduler.run_once`: upsert the combined batch (a storage fault here is
NOT caught and propagates), then — only after a successful upsert — set
`last_run_at` and `last_result_count` and return the count. -/
def runOnce (env : RunEnv) (s : SchedState) : Except Unit (SchedState × Nat) :=
  match env.upsert (collectPapers env) with
  | .error e => .error e
  | .ok count =>
    .ok ({ s with last_run_at := some env.now, last_result_count := count }, count)

/-- One iteration of `Scheduler._run_loop`: `try: self.run_once() except
Exception: pass`, so a failed run leaves the state as it was and the loop
proceeds to the next interval. -/
def loopStep (env : RunEnv) (s : SchedState) : SchedState :=
  match runOnce env s with
  | .error _ => s
  | .ok (s2, _) => s2

/-- The flag-claiming prefix of `Scheduler.run_once_async` (under
`self._job_lock`): return False untouched when `_job_running` is set,
otherwise set it and report True (the job thread is then started). -/
def runOnceAsyncClaim (s : SchedState) : SchedState × Bool :=
  if s.job_running then (s, false) else ({ s with job_running := true }, true)

/-- The spawned `_job` body: `try: self.run_once() finally: _job_running =
False` — the flag is cleared on both the success and the raise path. -/
def asyncJobRun (env : RunEnv) (s : SchedState) : SchedState :=
  match runOnce env s with
  | .error _ => { s with job_running := false }
  | .ok (s2, _) => { s2 with job_running := false }

/-- Shape of `Scheduler.status()`. -/
structure StatusInfo where
  last_run_at : Option String
  last_result_count : Nat
  running : Bool
  job_running : Bool
deriving Repr, DecidableEq

/-- `Scheduler.status`: a read-only snapshot of the run state plus the
periodic thread's liveness. -/
def schedStatus (s : SchedState) (threadAlive : Bool) : StatusInfo :=
  { last_run_at := s.last_run_at
    last_result_count := s.last_result_count
    running := threadAlive
    job_running := s.job_running }

/-- The code-point ranges satisfying Python `str.isspace()` (the
`Py_UNICODE_ISSPACE` set, used both by no-argument `str.split()` and by the
whitespace stripping of `int()`): the ASCII control whitespace including
vertical tab and form feed, the separator controls 1C-1F, and the Unicode
space characters. -/
def pySpaceRanges : List (Nat × Nat) :=
  [(0x9, 0xD), (0x1C, 0x20), (0x85, 0x85), (0xA0, 0xA0), (0x1680, 0x1680),
   (0x2000, 0x200A), (0x2028, 0x2029), (0x202F, 0x202F), (0x205F, 0x205F),
   (0x3000, 0x3000)]

/-- Python `str.isspace()` on a single character. -/
def pyIsSpace (c : Char) : Bool :=
  pySpaceRanges.any (fun p => decide (p.1 ≤ c.toNat ∧ c.toNat ≤ p.2))

/-- Python `str.split()` with no argument: split on runs of `isspace`
characters, dropping empty fields.  The accumulator holds the current field
reversed. -/
def splitWsAux : List Char → List Char → List (List Char)
  | [], acc => if acc.isEmpty then [] else [acc.reverse]
  | c :: cs, acc =>
    if pyIsSpace c then
      if acc.isEmpty then splitWsAux cs [] else acc.reverse :: splitWsAux cs []
    else splitWsAux cs (c :: acc)

/-- Python `cron_expr.split()`. -/
def splitWs (l : List Char) : List (List Char) := splitWsAux l []

/-- First code point of each aligned run of ten Unicode decimal digits
(the characters with `Numeric_Type=Decimal`, the exact digit set Python
`int()` accepts; every such digit lies in a contiguous 0-9 run). -/
def decimalDigitStarts : List Nat :=
  [0x30, 0x660, 0x6F0, 0x7C0, 0x966, 0x9E6, 0xA66, 0xAE6, 0xB66, 0xBE6,
   0xC66, 0xCE6, 0xD66, 0xDE6, 0xE50, 0xED0, 0xF20, 0x1040, 0x1090, 0x17E0,
   0x1810, 0x1946, 0x19D0, 0x1A80, 0x1A90, 0x1B50, 0x1BB0, 0x1C40, 0x1C50,
   0xA620, 0xA8D0, 0xA900, 0xA9D0, 0xA9F0, 0xAA50, 0xABF0, 0xFF10, 0x104A0,
   0x10D30, 0x11066, 0x110F0, 0x11136, 0x111D0, 0x112F0, 0x11450, 0x114D0,
   0x11650, 0x116C0, 0x11730, 0x118E0, 0x11950, 0x11C50, 0x11D50, 0x11DA0,
   0x16A60, 0x16AC0, 0x16B50, 0x1D7CE, 0x1D7D8, 0x1D7E2, 0x1D7EC, 0x1D7F6,
   0x1E140, 0x1E2F0, 0x1E950, 0x1FBF0]

/-- Decimal value of one character as Python `int()` sees it: `some` of its
offset inside an aligned decimal-digit run, `none` for a non-digit. -/
def pyDigitVal (c : Char) : Option Nat :=
  match decimalDigitStarts.find? (fun s => decide (s ≤ c.toNat ∧ c.toNat ≤ s + 9)) with
  | some s => some (c.toNat - s)
  | none => none

/-- Python `str.strip()` with no argument, on char lists. -/
def stripSpace (l : List Char) : List Char :=
  ((l.dropWhile pyIsSpace).reverse.dropWhile pyIsSpace).reverse

/-- Tail of a digit group after its first digit: an underscore is legal only
as a single separator strictly between two digits (PEP 515), so it must be
followed by a digit and may not end the group. -/
def pyDigitsAux (acc : Nat) : List Char → Option Nat
  | [] => some acc
  | ['_'] => none
  | '_' :: c :: rest =>
    match pyDigitVal c with
    | some d => pyDigitsAux (acc * 10 + d) rest
    | none => none
  | c :: rest =>
    match pyDigitVal c with
    | some d => pyDigitsAux (acc * 10 + d) rest
    | none => none

/-- A digit group: nonempty and starting with a digit (so a leading
underscore, as in `int("_5")`, fails). -/
def pyDigitsVal : List Char → Option Nat
  | [] => none
  | c :: rest =>
    match pyDigitVal c with
    | some d => pyDigitsAux d rest
    | none => none

/-- Python `int(s)` on a string: strip surrounding whitespace, allow one
ASCII `+`/`-` sign, then a group of Unicode decimal digits with single
underscores permitted between digits; anything else raises ValueError
(`none`).  (Base prefixes like `0x` are not accepted without an explicit
base argument, and indeed fail here since `x` is not a decimal digit.) -/
def pyIntChars (l : List Char) : Option Int :=
  match stripSpace l with
  | '-' :: rest => (pyDigitsVal rest).map (fun n => -(n : Int))
  | '+' :: rest => (pyDigitsVal rest).map (fun n => (n : Int))
  | rest => (pyDigitsVal rest).map (fun n => (n : Int))

/-- `Scheduler._cron_to_interval_seconds`: take the minute field
(`split()[0]`, an IndexError when the expression is all whitespace is caught),
and when it has the shape `*/N` with `int(N)` parseable return `N * 60`;
every other path falls back to `30 * 60`. -/
def cronToIntervalSeconds (expr : String) : Int :=
  match splitWs expr.data with
  | [] => 1800
  | f :: _ =>
    match f with
    | c1 :: c2 :: numPart =>
      if c1 = '*' ∧ c2 = '/' then
        match pyIntChars numPart with
        | some n => n * 60
        | none => 1800
      else 1800
    | _ => 1800

/-! Concrete fixtures used by witnesses and counterexamples. -/

/-- A well-formed paper fixture. -/
def paperWith (t u : String) (pub : Option String) : Paper :=
  { title := t
    url := u
    doi := none
    source := "nature"
    published_at := pub
    authors := none
    abstract := none
    journal := some "Nature"
    extras := none }

/-- A record violating the `title` non-emptiness invariant. -/
def malformedPaper : Paper := paperWith "" "https://example.org/x" none

/-- The three-record fixture of the spec's null-ordering property, inserted in
the order 2024-01-01, None, 2024-02-01. -/
def exampleDb : DB :=
  (upsertPapers "t3"
    ((upsertPapers "t2"
      ((upsertPapers "t1" emptyDB [paperWith "A" "u1" (some "2024-01-01T00:00:00")]).1)
      [paperWith "B" "u2" none]).1)
    [paperWith "C" "u3" (some "2024-02-01T00:00:00")]).1

/-- A fetch environment in which every network request fails. -/
def envAllFail : FetchEnv :=
  { http := fun _ => .error ()
    searchReq := fun _ => .error ()
    parseCards := fun _ => []
    parseSearchItems := fun _ => []
    parseFeedItems := fun _ => []
    parseDetail := fun _ => (none, none)
    fromIso := fun _ => none
    parseRssDate := fun _ => none
    netloc := fun _ => "" }

/-- A fetch environment in which every request succeeds and every feed body
parses to exactly one complete item. -/
def envOneItemPerFeed : FetchEnv :=
  { http := fun _ => .ok ""
    searchReq := fun _ => .ok ""
    parseCards := fun _ => []
    parseSearchItems := fun _ => []
    parseFeedItems := fun _ => [{ title := some "T", link := some "L", pubDate := none }]
    parseDetail := fun _ => (none, none)
    fromIso := fun _ => none
    parseRssDate := fun _ => none
    netloc := fun _ => "" }

/-- A run environment whose storage layer always fails. -/
def envStorageFault : RunEnv :=
  { natureResult := .ok []
    rssResult := .ok []
    feedsConfigured := false
    upsert := fun _ => .error ()
    now := "2024-05-01T00:00:00" }

/-- A run environment in which everything succeeds. -/
def envAllOk : RunEnv :=
  { natureResult := .ok []
    rssResult := .ok []
    feedsConfigured := false
    upsert := fun l => .ok l.length
    now := "2024-05-01T00:00:00" }

/-- First write of the identity-merge fixture. -/
def pFirst : Paper := paperWith "A" "https://example.org/p" (some "2024-01-01T00:00:00")

/-- Second write of the identity-merge fixture: same url, different mutable
fields. -/
def pSecond : Paper :=
  { pFirst with
    title := "B"
    doi := some "10.1/xyz"
    abstract := some "new text" }

/-! Helper lemmas about the byte-wise TEXT order. -/

theorem charListLe_total : ∀ (l1 l2 : List Char),
    charListLe l1 l2 = true ∨ charListLe l2 l1 = true := by
  intro l1
  induction l1 with
  | nil => intro l2; left; rfl
  | cons a as ih =>
    intro l2
    cases l2 with
    | nil => right; rfl
    | cons b bs =>
      rcases lt_trichotomy a b with h | h | h
      · left; simp [charListLe, h]
      · subst h
        rcases ih bs with h2 | h2
        · left; simp [charListLe, h2]
        · right; simp [charListLe, h2]
      · right; simp [charListLe, h]

theorem charListLe_trans : ∀ (l1 l2 l3 : List Char),
    charListLe l1 l2 = true → charListLe l2 l3 = true → charListLe l1 l3 = true := by
  intro l1
  induction l1 with
  | nil => intro l2 l3 _ _; rfl
  | cons a as ih =>
    intro l2 l3 h12 h23
    cases l2 with
    | nil => simp [charListLe] at h12
    | cons b bs =>
      cases l3 with
      | nil => simp [charListLe] at h23
      | cons c cs =>
        rcases lt_trichotomy a b with hab | hab | hab
        · rcases lt_trichotomy b c with hbc | hbc | hbc
          · simp [charListLe, lt_trans hab hbc]
          · subst hbc; simp [charListLe, hab]
          · simp [charListLe, hbc, lt_asymm hbc] at h23
        · subst hab
          rcases lt_trichotomy a c with hac | hac | hac
          · simp [charListLe, hac]
          · subst hac
            simp [charListLe] at h12 h23 ⊢
            exact ih bs cs h12 h23
          · simp [charListLe, hac, lt_asymm hac] at h23
        · simp [charListLe, hab, lt_asymm hab] at h12

theorem charListLe_antisymm : ∀ (l1 l2 : List Char),
    charListLe l1 l2 = true → charListLe l2 l1 = true → l1 = l2 := by
  intro l1
  induction l1 with
  | nil =>
    intro l2 h12 h21
    cases l2 with
    | nil => rfl
    | cons b bs => simp [charListLe] at h21
  | cons a as ih =>
    intro l2 h12 h21
    cases l2 with
    | nil => simp [charListLe] at h12
    | cons b bs =>
      rcases lt_trichotomy a b with h | h | h
      · simp [charListLe, h, lt_asymm h] at h21
      · subst h
        simp [charListLe] at h12 h21
        rw [ih bs h12 h21]
      · simp [charListLe, h, lt_asymm h] at h12

/-! Helper lemmas about the search order relation. -/

theorem rowBefore_total : ∀ a b : Row, rowBefore a b ∨ rowBefore b a := by
  intro a b
  by_cases h : rowKey a = rowKey b
  · rcases Nat.le_total b.id a.id with hle | hle
    · left; simp [rowBefore, rowOrdB, h, hle]
    · right; simp [rowBefore, rowOrdB, h.symm, hle]
  · rcases charListLe_total (rowKey b) (rowKey a) with hc | hc
    · left; simp [rowBefore, rowOrdB, h, hc]
    · right; simp [rowBefore, rowOrdB, Ne.symm h, hc]

theorem rowBefore_trans : ∀ a b c : Row, rowBefore a b → rowBefore b c → rowBefore a c := by
  intro a b c hab hbc
  by_cases h1 : rowKey a = rowKey b <;> by_cases h2 : rowKey b = rowKey c
  · have h3 : rowKey a = rowKey c := h1.trans h2
    simp [rowBefore, rowOrdB, h1] at hab
    simp [rowBefore, rowOrdB, h2] at hbc
    simp [rowBefore, rowOrdB, h3]
    exact le_trans hbc hab
  · have h3 : rowKey a ≠ rowKey c := fun e => h2 (h1.symm.trans e)
    simp [rowBefore, rowOrdB, h2] at hbc
    simp [rowBefore, rowOrdB, h3]
    rw [h1]
    exact hbc
  · have h3 : rowKey a ≠ rowKey c := fun e => h1 (e.trans h2.symm)
    simp [rowBefore, rowOrdB, h1] at hab
    simp [rowBefore, rowOrdB, h3]
    rw [← h2]
    exact hab
  · simp [rowBefore, rowOrdB, h1] at hab
    simp [rowBefore, rowOrdB, h2] at hbc
    by_cases h3 : rowKey a = rowKey c
    · exfalso
      rw [← h3] at hbc
      exact h1 (charListLe_antisymm _ _ hbc hab)
    · simp [rowBefore, rowOrdB, h3]
      exact charListLe_trans _ _ _ hbc hab

/-- On rows whose publish date is never stored as the empty string (the code
stores either NULL or a non-empty ISO serialization), the code's
`COALESCE`-based order implies the spec's date-descending/nulls-last order. -/
theorem rowOrd_imp_specOrder (a b : Row)
    (ha : a.published_at ≠ some "") (hb : b.published_at ≠ some "")
    (h : rowBefore a b) : specOrderedBefore a b := by
  cases hpa : a.published_at with
  | none =>
    cases hpb : b.published_at with
    | none =>
      simp [rowBefore, rowOrdB, rowKey, hpa, hpb] at h
      simp [specOrderedBefore, hpa, hpb]
      exact h
    | some y =>
      exfalso
      have hy : y ≠ "" := fun e => hb (by rw [hpb, e])
      cases y with
      | mk yd =>
        cases yd with
        | nil => exact hy rfl
        | cons c cs =>
          have hk : rowKey a ≠ rowKey b := by
            simp [rowKey, hpa, hpb]
          simp [rowBefore, rowOrdB, hk, rowKey, hpa, hpb, charListLe] at h
  | some x =>
    have hx : x ≠ "" := fun e => ha (by rw [hpa, e])
    cases hpb : b.published_at with
    | none =>
      simp [specOrderedBefore, hpa, hpb]
    | some y =>
      have hy : y ≠ "" := fun e => hb (by rw [hpb, e])
      by_cases hxy : x = y
      · subst hxy
        simp [rowBefore, rowOrdB, rowKey, hpa, hpb] at h
        simp [specOrderedBefore, hpa, hpb]
        exact h
      · have hd : x.data ≠ y.data := fun e => hxy (String.ext e)
        simp [rowBefore, rowOrdB, rowKey, hpa, hpb, hd] at h
        simp [specOrderedBefore, hpa, hpb, hxy]
        exact h

/-- The items returned by `search_papers` are sorted by the `ORDER BY` key. -/
theorem search_items_sorted (db : DB) (q : String) (src : Option String)
    (limit offset : Nat) :
    List.Sorted rowBefore ((searchPapers db q src limit offset).items) := by
  have htot : IsTotal Row rowBefore := ⟨rowBefore_total⟩
  have htr : IsTrans Row rowBefore := ⟨rowBefore_trans⟩
  have hs := @List.sorted_insertionSort Row rowBefore (fun a b => inferInstance)
    htot htr (db.rows.filter (rowMatches q src))
  have hsub :
      (((List.insertionSort rowBefore (db.rows.filter (rowMatches q src))).drop
        offset).take limit).Sublist
        (List.insertionSort rowBefore (db.rows.filter (rowMatches q src))) :=
    (List.take_sublist _ _).trans (List.drop_sublist _ _)
  exact List.Pairwise.sublist hsub hs

/-- Every returned item is a stored row. -/
theorem search_items_mem {db : DB} {q : String} {src : Option String}
    {limit offset : Nat} {r : Row}
    (h : r ∈ (searchPapers db q src limit offset).items) : r ∈ db.rows := by
  have h2 : r ∈ ((List.insertionSort rowBefore
      (db.rows.filter (rowMatches q src))).drop offset).take limit := h
  have h3 := List.mem_of_mem_drop (List.mem_of_mem_take h2)
  have h4 := (List.perm_insertionSort rowBefore
    (db.rows.filter (rowMatches q src))).mem_iff.mp h3
  exact List.mem_of_mem_filter h4

/-- Claim C6: search with no filters returns items ordered by published_at
descending with no-date records last, ties broken by insertion recency
(autoincrement id) descending; on the spec's three-record fixture (dates
2024-01-01, None, 2024-02-01 inserted in that order) the returned order is
2024-02-01, 2024-01-01, then the None-dated record. -/
theorem search_null_ordering :
    (∀ (db : DB) (limit offset : Nat),
        (∀ r ∈ db.rows, r.published_at ≠ some "") →
        List.Pairwise specOrderedBefore ((searchPapers db "" none limit offset).items)) ∧
    (searchPapers exampleDb "" none 50 0).items.map Row.url = ["u3", "u1", "u2"] := by
  constructor
  · intro db limit offset hdb
    have hs := search_items_sorted db "" none limit offset
    exact List.Pairwise.imp_of_mem
      (fun {a b} hma hmb hab =>
        rowOrd_imp_specOrder a b (hdb a (search_items_mem hma))
          (hdb b (search_items_mem hmb)) hab) hs
  · rfl

/-- Witness for C6 at the spec's three-record fixture. -/
theorem search_null_ordering_w :
    List.Pairwise specOrderedBefore ((searchPapers exampleDb "" none 50 0).items) :=
  search_null_ordering.1 exampleDb 50 0 (by decide)

/-- Claim C10: the `count` field of a search result equals the number of items
in the returned page (hence is at most `limit`), not the total number of
matching records, and `offset`/`limit` echo the call's arguments; on the
three-record fixture with `limit = 1` the count is 1 while 3 records match. -/
theorem search_count_is_page_length :
    (∀ (db : DB) (q : String) (src : Option String) (limit offset : Nat),
        (searchPapers db q src limit offset).count =
          (searchPapers db q src limit offset).items.length ∧
        (searchPapers db q src limit offset).items.length ≤ limit ∧
        (searchPapers db q src limit offset).offset = offset ∧
        (searchPapers db q src limit offset).limit = limit) ∧
    ((searchPapers exampleDb "" none 1 0).count = 1 ∧
     (exampleDb.rows.filter (rowMatches "" none)).length = 3) := by
  refine ⟨?_, by decide, by decide⟩
  intro db q src limit offset
  exact ⟨rfl, List.length_take_le _ _, rfl, rfl⟩

/-- Claim C8: `upsert_papers` returns the length of the input sequence (0 for
the empty batch), not the number of stored rows changed: a two-element batch
sharing one url reports 2 while only one row exists afterwards. -/
theorem upsert_count_is_input_length :
    (∀ (now : String) (db : DB) (ps : List Paper), (upsertPapers now db ps).2 = ps.length) ∧
    (upsertPapers "t" emptyDB [paperWith "A" "u" none, paperWith "B" "u" none]).2 = 2 ∧
    (upsertPapers "t" emptyDB [paperWith "A" "u" none, paperWith "B" "u" none]).1.rows.length = 1 := by
  refine ⟨?_, by decide, by decide⟩
  intro now db ps
  cases ps with
  | nil => rfl
  | cons p rest => rfl

/-- Claim C1 (failing-input evaluation): a record violating the non-empty
`title` invariant is not rejected — `upsert_papers` performs no validation, so
the record is persisted (SQL `NOT NULL` accepts the empty string) and counted. -/
theorem upsert_applies_malformed :
    (upsertPapers "t0" emptyDB [malformedPaper]).2 = 1 ∧
    (upsertPapers "t0" emptyDB [malformedPaper]).1.rows = [mkRow 1 "t0" malformedPaper] ∧
    (mkRow 1 "t0" malformedPaper).title = "" := by
  exact ⟨rfl, rfl, rfl⟩

/-- Rows whose url differs from the conflict url pass through the UPDATE arm
untouched and are dropped by a url filter. -/
theorem filter_update_of_fresh (p : Paper) (u : String) (rows : List Row)
    (hfresh : ∀ r ∈ rows, r.url ≠ u) (hu : p.url = u) :
    (rows.map (fun r => if r.url = p.url then applyUpdate p r else r)).filter
      (fun r => r.url = u) = [] := by
  rw [List.filter_eq_nil_iff]
  intro x hx
  rcases List.mem_map.mp hx with ⟨r, hr, hrx⟩
  have hne : r.url ≠ p.url := by
    rw [hu]
    exact hfresh r hr
  rw [if_neg hne] at hrx
  subst hrx
  simp [hu] at hne ⊢
  exact hne

/-- Claim C3: upserting two records with the same url (second after first)
into a store not yet containing that url leaves exactly one stored record for
it; its mutable fields (title, doi, source, published_at, authors, abstract,
journal, extras) carry the second write's values while the url and the
creation time (and the row id) are those of the first insert. -/
theorem upsert_second_write_wins :
    ∀ (db : DB) (t1 t2 : String) (p1 p2 : Paper),
      p1.url = p2.url →
      (∀ r ∈ db.rows, r.url ≠ p1.url) →
      findByUrl (upsertPapers t2 ((upsertPapers t1 db [p1]).1) [p2]).1 p2.url =
        [{ id := db.nextId
           title := p2.title
           url := p1.url
           doi := p2.doi
           source := p2.source
           published_at := p2.published_at
           authors := joinAuthors p2.authors
           abstract := p2.abstract
           journal := p2.journal
           extras := p2.extras
           created_at := t1 }] := by
  intro db t1 t2 p1 p2 hurl hfresh
  have hany : db.rows.any (fun r => r.url = p1.url) = false := by
    rw [List.any_eq_false]
    intro r hr
    simpa using hfresh r hr
  have e1 : (upsertPapers t1 db [p1]).1 =
      { rows := db.rows ++ [mkRow db.nextId t1 p1], nextId := db.nextId + 1 } := by
    show upsertOne t1 db p1 = _
    unfold upsertOne
    rw [hany]
    rfl
  have hany2 : (db.rows ++ [mkRow db.nextId t1 p1]).any (fun r => r.url = p2.url) = true := by
    rw [List.any_append]
    simp [mkRow, hurl]
  have e2 : (upsertPapers t2 ((upsertPapers t1 db [p1]).1) [p2]).1 =
      { rows := (db.rows ++ [mkRow db.nextId t1 p1]).map
          (fun r => if r.url = p2.url then applyUpdate p2 r else r)
        nextId := db.nextId + 1 } := by
    rw [e1]
    show upsertOne t2 _ p2 = _
    unfold upsertOne
    rw [hany2]
    rfl
  rw [e2]
  unfold findByUrl
  show ((db.rows ++ [mkRow db.nextId t1 p1]).map
      (fun r => if r.url = p2.url then applyUpdate p2 r else r)).filter
      (fun r => r.url = p2.url) = _
  rw [List.map_append, List.filter_append]
  rw [filter_update_of_fresh p2 p2.url db.rows
    (fun r hr => hurl ▸ hfresh r hr) rfl]
  have hrow : (mkRow db.nextId t1 p1).url = p2.url := by
    simp [mkRow, hurl]
  simp only [List.map_cons, List.map_nil, if_pos hrow, List.nil_append]
  have hrow2 : (applyUpdate p2 (mkRow db.nextId t1 p1)).url = p2.url := hrow
  rw [List.filter_cons]
  simp [hrow2, applyUpdate, mkRow, hurl]

/-- Witness for C3 at a concrete two-write fixture. -/
theorem upsert_second_write_wins_w :
    findByUrl (upsertPapers "t2" ((upsertPapers "t1" emptyDB [pFirst]).1) [pSecond]).1
        pSecond.url =
      [{ id := 1
         title := "B"
         url := "https://example.org/p"
         doi := some "10.1/xyz"
         source := "nature"
         published_at := some "2024-01-01T00:00:00"
         authors := none
         abstract := some "new text"
         journal := some "Nature"
         extras := none
         created_at := "t1" }] :=
  upsert_second_write_wins emptyDB "t1" "t2" pFirst pSecond rfl (by simp [emptyDB])

/-- Counterexample to C2: `NatureCrawler.fetch_latest` does not absorb a fault
of the top-level listing request — in an environment where that request fails,
the call propagates the error instead of returning an empty sequence. -/
theorem nature_fetch_raises_cx : natureFetchLatest envAllFail 5 = Except.error () := rfl

/-- Amended C2: per-feed faults (RSS variant) and per-item detail faults are
absorbed inside the fetch boundary, but the Nature listing/search variants
propagate a fault of their one top-level page request to the caller: they
error exactly when that request errors, and the RSS variant returns the empty
sequence even when every feed request fails. -/
theorem fetch_fault_containment :
    (∀ (env : FetchEnv) (n : Nat),
        natureFetchLatest env n = Except.error () ↔
          env.http LATEST_URL = Except.error ()) ∧
    (∀ (env : FetchEnv) (q : String) (n : Nat),
        natureFetchSearch env q n = Except.error () ↔
          env.searchReq q = Except.error ()) ∧
    (∀ (env : FetchEnv) (feeds : List String) (n : Nat),
        (∀ f ∈ feeds, env.http f = Except.error ()) →
        rssFetchLatest env feeds n = []) := by
  refine ⟨?_, ?_, ?_⟩
  · intro env n
    cases h : env.http LATEST_URL with
    | error e => cases e; simp [natureFetchLatest, h, Bind.bind, Except.bind, Pure.pure, Except.pure]
    | ok body => simp [natureFetchLatest, h, Bind.bind, Except.bind, Pure.pure, Except.pure]
  · intro env q n
    cases h : env.searchReq q with
    | error e => cases e; simp [natureFetchSearch, h, Bind.bind, Except.bind, Pure.pure, Except.pure]
    | ok body => simp [natureFetchSearch, h, Bind.bind, Except.bind, Pure.pure, Except.pure]
  · intro env feeds n
    induction feeds with
    | nil => intro _; rfl
    | cons f fs ih =>
      intro h
      have h1 : rssProcessFeed env n f = [] := by
        unfold rssProcessFeed
        rw [h f (List.mem_cons_self f fs)]
      have h2 := ih (fun g hg => h g (List.mem_cons_of_mem f hg))
      unfold rssFetchLatest at h2 ⊢
      simp [h1, h2]

/-- Witness for C2 (amended): with every feed request failing, the RSS fetch
returns the empty sequence rather than raising. -/
theorem fetch_fault_containment_w : rssFetchLatest envAllFail ["feedA"] 3 = [] :=
  fetch_fault_containment.2.2 envAllFail ["feedA"] 3 (fun _ _ => rfl)

/-- Counterexample to C7: with two configured feeds of one item each and
`max_items = 1`, the feed-aggregating variant returns 2 records — more than
`max_items` in total (the slice bound is applied per feed). -/
theorem rss_exceeds_max_items_cx :
    ¬ (rssFetchLatest envOneItemPerFeed ["f1", "f2"] 1).length ≤ 1 := by decide

/-- Each single feed contributes at most `max_items` records. -/
theorem rssProcessFeed_length_le (env : FetchEnv) (n : Nat) (feed : String) :
    (rssProcessFeed env n feed).length ≤ n := by
  unfold rssProcessFeed
  cases env.http feed with
  | error e => exact Nat.zero_le n
  | ok body =>
    exact le_trans (List.length_filterMap_le _ _) (List.length_take_le _ _)

/-- Amended C7: the Nature listing/search variants return at most `max_items`
records per call; the feed-aggregating variant returns at most `max_items`
records per configured feed, hence at most `feeds.length * max_items` in
total (not `max_items` in total). -/
theorem fetch_bounded_per_request :
    (∀ (env : FetchEnv) (n : Nat) (l : List Paper),
        natureFetchLatest env n = Except.ok l → l.length ≤ n) ∧
    (∀ (env : FetchEnv) (q : String) (n : Nat) (l : List Paper),
        natureFetchSearch env q n = Except.ok l → l.length ≤ n) ∧
    (∀ (env : FetchEnv) (n : Nat) (feed : String),
        (rssProcessFeed env n feed).length ≤ n) ∧
    (∀ (env : FetchEnv) (feeds : List String) (n : Nat),
        (rssFetchLatest env feeds n).length ≤ feeds.length * n) := by
  refine ⟨?_, ?_, rssProcessFeed_length_le, ?_⟩
  · intro env n l h
    cases he : env.http LATEST_URL with
    | error e => simp [natureFetchLatest, he, Bind.bind, Except.bind, Pure.pure, Except.pure] at h
    | ok body =>
      simp [natureFetchLatest, he, Bind.bind, Except.bind, Pure.pure, Except.pure] at h
      rw [← h]
      exact le_trans (List.length_filterMap_le _ _) (List.length_take_le _ _)
  · intro env q n l h
    cases he : env.searchReq q with
    | error e => simp [natureFetchSearch, he, Bind.bind, Except.bind, Pure.pure, Except.pure] at h
    | ok body =>
      simp [natureFetchSearch, he, Bind.bind, Except.bind, Pure.pure, Except.pure] at h
      rw [← h]
      exact le_trans (List.length_filterMap_le _ _) (List.length_take_le _ _)
  · intro env feeds n
    induction feeds with
    | nil => simp [rssFetchLatest]
    | cons f fs ih =>
      unfold rssFetchLatest at ih ⊢
      simp only [List.map_cons, List.flatten_cons, List.length_append]
      calc (rssProcessFeed env n f).length + (List.map (rssProcessFeed env n) fs).flatten.length
          ≤ n + fs.length * n :=
            Nat.add_le_add (rssProcessFeed_length_le env n f) ih
        _ = (fs.length + 1) * n := by ring
        _ = (f :: fs).length * n := by simp

/-- Witness for C7 (amended) at a concrete succeeding environment. -/
theorem fetch_bounded_per_request_w : ([] : List Paper).length ≤ 3 :=
  fetch_bounded_per_request.1 envOneItemPerFeed 3 [] rfl

/-- Claim C4: the on-demand trigger is single-flight — when the job flag is
already claimed it reports "not started" with no side effects; when it claims
the flag it reports "started"; the spawned job clears the flag on every exit
path (the `finally` covers both the success and the raise outcome of the run),
so a subsequent trigger reports "started" again. -/
theorem single_flight_trigger :
    ∀ (s : SchedState) (env : RunEnv),
      (s.job_running = true → runOnceAsyncClaim s = (s, false)) ∧
      (s.job_running = false →
        runOnceAsyncClaim s = ({ s with job_running := true }, true)) ∧
      (asyncJobRun env { s with job_running := true }).job_running = false ∧
      (runOnceAsyncClaim (asyncJobRun env { s with job_running := true })).2 = true := by
  intro s env
  refine ⟨?_, ?_, ?_, ?_⟩
  · intro h
    simp [runOnceAsyncClaim, h]
  · intro h
    simp [runOnceAsyncClaim, h]
  · unfold asyncJobRun
    cases runOnce env { s with job_running := true } with
    | error e => rfl
    | ok p => cases p with | mk s2 c => rfl
  · unfold asyncJobRun
    cases runOnce env { s with job_running := true } with
    | error e => rfl
    | ok p => cases p with | mk s2 c => rfl

/-- Witness for C4 at a concrete claimed state. -/
theorem single_flight_trigger_w :
    runOnceAsyncClaim { last_run_at := none, last_result_count := 0, job_running := true } =
      ({ last_run_at := none, last_result_count := 0, job_running := true }, false) :=
  (single_flight_trigger
    { last_run_at := none, last_result_count := 0, job_running := true } envAllOk).1 rfl

/-- Claim C5: when the storage upsert faults during a run, `run_once`
propagates the fault (so the synchronous trigger surfaces it to its caller),
the periodic loop's iteration catches it and leaves the state unchanged for
the next interval, and the status snapshot still reports the last successfully
completed run. -/
theorem storage_fault_isolation :
    ∀ (env : RunEnv) (s : SchedState) (alive : Bool),
      env.upsert (collectPapers env) = Except.error () →
      runOnce env s = Except.error () ∧
      loopStep env s = s ∧
      schedStatus (loopStep env s) alive = schedStatus s alive := by
  intro env s alive h
  have h1 : runOnce env s = Except.error () := by
    unfold runOnce
    rw [h]
  refine ⟨h1, ?_, ?_⟩
  · unfold loopStep
    rw [h1]
  · unfold loopStep
    rw [h1]

/-- Witness for C5 at a concrete storage-fault environment. -/
theorem storage_fault_isolation_w :
    runOnce envStorageFault { last_run_at := none, last_result_count := 0, job_running := false } =
        Except.error () ∧
    loopStep envStorageFault { last_run_at := none, last_result_count := 0, job_running := false } =
        { last_run_at := none, last_result_count := 0, job_running := false } ∧
    schedStatus (loopStep envStorageFault
        { last_run_at := none, last_result_count := 0, job_running := false }) true =
      schedStatus { last_run_at := none, last_result_count := 0, job_running := false } true :=
  storage_fault_isolation envStorageFault
    { last_run_at := none, last_result_count := 0, job_running := false } true rfl

/-- Claim C9: a schedule expression whose minute field has the shape `*/N`
with parseable `N` yields an interval of `N * 60` seconds; the minute field
having any other shape, `N` failing to parse, or the expression having no
fields at all, each falls back to the 1800-second default without raising; in
particular `*/15 * * * *` yields 900 and unparseable expressions yield 1800.
The concrete anchors include the underscore-grouped numeral `*/1_0` (which
`int()` parses as 10) and a form-feed field separator (which `split()`
honors), pinning the model to Python's `int()`/`split()` edge cases. -/
theorem cron_interval_derivation :
    (∀ (expr : String) (numPart : List Char) (rest : List (List Char)) (n : Int),
        splitWs expr.data = ('*' :: '/' :: numPart) :: rest →
        pyIntChars numPart = some n →
        cronToIntervalSeconds expr = n * 60) ∧
    (∀ (expr : String) (numPart : List Char) (rest : List (List Char)),
        splitWs expr.data = ('*' :: '/' :: numPart) :: rest →
        pyIntChars numPart = none →
        cronToIntervalSeconds expr = 1800) ∧
    (∀ (expr : String) (f : List Char) (rest : List (List Char)),
        splitWs expr.data = f :: rest →
        (∀ numPart, f ≠ '*' :: '/' :: numPart) →
        cronToIntervalSeconds expr = 1800) ∧
    (∀ expr : String, splitWs expr.data = [] → cronToIntervalSeconds expr = 1800) ∧
    cronToIntervalSeconds "*/15 * * * *" = 900 ∧
    cronToIntervalSeconds "0 12 * * *" = 1800 ∧
    cronToIntervalSeconds "every half hour" = 1800 ∧
    cronToIntervalSeconds "" = 1800 ∧
    cronToIntervalSeconds "*/1_0 * * * *" = 600 ∧
    cronToIntervalSeconds "*/5\x0C* * * *" = 300 := by
  refine ⟨?_, ?_, ?_, ?_, rfl, rfl, rfl, rfl, rfl, rfl⟩
  · intro expr numPart rest n hsplit hint
    unfold cronToIntervalSeconds
    rw [hsplit]
    show ((if ('*' : Char) = '*' ∧ ('/' : Char) = '/' then
        match pyIntChars numPart with
        | some n => n * 60
        | none => 1800
      else 1800 : Int)) = n * 60
    rw [if_pos ⟨rfl, rfl⟩, hint]
  · intro expr numPart rest hsplit hint
    unfold cronToIntervalSeconds
    rw [hsplit]
    show ((if ('*' : Char) = '*' ∧ ('/' : Char) = '/' then
        match pyIntChars numPart with
        | some n => n * 60
        | none => 1800
      else 1800 : Int)) = 1800
    rw [if_pos ⟨rfl, rfl⟩, hint]
  · intro expr f rest hsplit hshape
    unfold cronToIntervalSeconds
    rw [hsplit]
    match f, hshape with
    | [], _ => rfl
    | [c1], _ => rfl
    | c1 :: c2 :: numPart, hshape =>
      show ((if c1 = '*' ∧ c2 = '/' then
          match pyIntChars numPart with
          | some n => n * 60
          | none => 1800
        else 1800 : Int)) = 1800
      have hcond : ¬ (c1 = '*' ∧ c2 = '/') := by
        rintro ⟨h1, h2⟩
        subst h1
        subst h2
        exact hshape numPart rfl
      rw [if_neg hcond]
  · intro expr hsplit
    unfold cronToIntervalSeconds
    rw [hsplit]

/-- Witness for C9: a `*/N` expression other than the spec's example. -/
theorem cron_interval_derivation_w : cronToIntervalSeconds "*/7 * * * *" = 420 :=
  cron_interval_derivation.1 "*/7 * * * *" ['7'] [['*'], ['*'], ['*'], ['*']] 7 rfl rfl

end LitRetriever
